import Mathlib

/-!
Shallow embedding of the in-memory store (`MemoryDB`) of
`src/simple-main.go` together with proofs about its create/get/list
operations.

Modelling conventions:
* Go `uint` identities and counters become `Nat` (the 64-bit wrap is
  unreachable for the trace lengths the spec talks about).
* Go `time.Time` becomes a `Nat` clock value that is passed explicitly to
  every operation that calls `time.Now()`.
* Go `float64` prices become `Rat`; the store only stores and copies the
  price, it never computes with it.
* Go `map[uint]*T` becomes an association list with replace-on-insert
  semantics; lookup misses give `none`, modelling the `(value, ok)` pair.
* The `sync.RWMutex` is not modelled: operations are pure state
  transformers, matching the sequential semantics of the lock-protected
  critical sections.
-/

namespace SimpleMain

/-- The `User` model of `simple-main.go` (lines 14-21). -/
structure User where
  id : Nat
  username : String
  email : String
  fullName : String
  isActive : Bool
  createAt : Nat
  deriving Repr, DecidableEq

/-- The `Product` model of `simple-main.go` (lines 24-33). -/
structure Product where
  id : Nat
  name : String
  description : String
  price : Rat
  stock : Int
  category : String
  isActive : Bool
  createAt : Nat
  deriving Repr, DecidableEq

/-- Association-list model of a Go `map`: `m[k] = v` replaces the binding
for `k` when present, otherwise adds one. -/
def mapInsert {α : Type} (k : Nat) (v : α) : List (Nat × α) → List (Nat × α)
  | [] => [(k, v)]
  | (k2, v2) :: rest =>
      if k2 = k then (k, v) :: rest else (k2, v2) :: mapInsert k v rest

/-- Association-list model of a Go map read: `v, ok := m[k]` with the miss
case collapsed into `none`. -/
def mapLookup {α : Type} (k : Nat) : List (Nat × α) → Option α
  | [] => none
  | (k2, v) :: rest => if k2 = k then some v else mapLookup k rest

/-- The `MemoryDB` state of `simple-main.go` (lines 43-49); the mutex is
not part of the sequential state. -/
structure MemoryDB where
  users : List (Nat × User)
  products : List (Nat × Product)
  userID : Nat
  prodID : Nat
  deriving Repr, DecidableEq

/-- The seeded admin user written by `NewMemoryDB` (lines 60-67). -/
def seedUser (now : Nat) : User :=
  { id := 1
    username := "admin"
    email := "admin@example.com"
    fullName := "系统管理员"
    isActive := true
    createAt := now }

/-- The seeded product written by `NewMemoryDB` (lines 69-78). -/
def seedProduct (now : Nat) : Product :=
  { id := 1
    name := "Go学习指南"
    description := "从入门到精通的Go语言学习资料"
    price := 99.99
    stock := 100
    category := "书籍"
    isActive := true
    createAt := now }

/-- `NewMemoryDB` (lines 51-81): empty maps and both counters at 1, then
one test user and one test product are seeded under key 1. -/
def NewMemoryDB (now : Nat) : MemoryDB :=
  { users := mapInsert 1 (seedUser now) []
    products := mapInsert 1 (seedProduct now) []
    userID := 1
    prodID := 1 }

/-- `CreateUser` (lines 102-111): set the record's id to the current
counter and its timestamp to `time.Now()`, store it under the counter,
increment the counter, return the finalized record. -/
def CreateUser (db : MemoryDB) (now : Nat) (user : User) : User × MemoryDB :=
  let u := { user with id := db.userID, createAt := now }
  (u, { db with users := mapInsert db.userID u db.users, userID := db.userID + 1 })

/-- `GetUserByID` (lines 94-100): map read returning the record and the
found indicator, collapsed into an `Option`. -/
def GetUserByID (db : MemoryDB) (id : Nat) : Option User :=
  mapLookup id db.users

/-- `GetAllUsers` (lines 83-92): copy every stored user record into a
fresh slice. -/
def GetAllUsers (db : MemoryDB) : List User :=
  db.users.map Prod.snd

/-- `CreateProduct` (lines 132-142): like `CreateUser`, but it also
forces `IsActive` to `true` (line 138). -/
def CreateProduct (db : MemoryDB) (now : Nat) (product : Product) : Product × MemoryDB :=
  let p := { product with id := db.prodID, createAt := now, isActive := true }
  (p, { db with products := mapInsert db.prodID p db.products, prodID := db.prodID + 1 })

/-- `GetProductByID` (lines 124-130). -/
def GetProductByID (db : MemoryDB) (id : Nat) : Option Product :=
  mapLookup id db.products

/-- `GetAllProducts` (lines 113-122). -/
def GetAllProducts (db : MemoryDB) : List Product :=
  db.products.map Prod.snd

/-- One store operation, with the inputs (clock value, record, id) the
enclosing HTTP layer would supply. -/
inductive Op where
  | createUser (now : Nat) (u : User)
  | createProduct (now : Nat) (p : Product)
  | getUser (id : Nat)
  | getProduct (id : Nat)
  | listUsers
  | listProducts
  deriving Repr, DecidableEq

/-- State effect of one operation: only the create operations mutate the
store. -/
def applyOp (db : MemoryDB) : Op → MemoryDB
  | .createUser now u => (CreateUser db now u).2
  | .createProduct now p => (CreateProduct db now p).2
  | .getUser _ => db
  | .getProduct _ => db
  | .listUsers => db
  | .listProducts => db

/-- Run a sequence of operations. -/
def runOps (db : MemoryDB) : List Op → MemoryDB
  | [] => db
  | op :: rest => runOps (applyOp db op) rest

/-- A state is reachable when some operation sequence produces it from a
newly constructed store. -/
def Reachable (db : MemoryDB) : Prop :=
  ∃ (t0 : Nat) (ops : List Op), runOps (NewMemoryDB t0) ops = db

/-- The user identities handed out by the create calls in a run. -/
def assignedUserIDs (db : MemoryDB) : List Op → List Nat
  | [] => []
  | op :: rest =>
      match op with
      | .createUser _ _ => db.userID :: assignedUserIDs (applyOp db op) rest
      | _ => assignedUserIDs (applyOp db op) rest

/-- A run of bare `CreateUser` calls (each with its clock value and input
record), returning the list of assigned identities in call order together
with the final state. -/
def runCreates (db : MemoryDB) : List (Nat × User) → List Nat × MemoryDB
  | [] => ([], db)
  | (now, u) :: rest =>
      let r := CreateUser db now u
      let rec2 := runCreates r.2 rest
      (r.1.id :: rec2.1, rec2.2)

/-- Invariant of every reachable store state: stored ids equal their keys,
keys never exceed the counter (strictly below it except for the seeded
key 1 while the counter is still 1), keys are distinct, and the counters
stay at least 1. -/
def StoreInv (db : MemoryDB) : Prop :=
  (∀ k u, mapLookup k db.users = some u → u.id = k) ∧
  (∀ k p, mapLookup k db.products = some p → p.id = k) ∧
  (∀ k, (mapLookup k db.users).isSome → k < db.userID ∨ (k = 1 ∧ db.userID = 1)) ∧
  (∀ k, (mapLookup k db.products).isSome → k < db.prodID ∨ (k = 1 ∧ db.prodID = 1)) ∧
  (db.users.map Prod.fst).Nodup ∧
  (db.products.map Prod.fst).Nodup ∧
  1 ≤ db.userID ∧ 1 ≤ db.prodID

/-- A sample user input, as the HTTP layer would pass it to `CreateUser`. -/
def probeUser : User :=
  { id := 0
    username := "alice"
    email := "alice@example.com"
    fullName := "Alice"
    isActive := true
    createAt := 0 }

/-- A sample product input with the active flag off. -/
def probeProduct : Product :=
  { id := 0
    name := "widget"
    description := "a widget"
    price := 5
    stock := 2
    category := "misc"
    isActive := false
    createAt := 0 }

/-! ### Association-list map lemmas -/

theorem mapLookup_mapInsert_self {α : Type} (k : Nat) (v : α) (m : List (Nat × α)) :
    mapLookup k (mapInsert k v m) = some v := by
  induction m with
  | nil => simp [mapInsert, mapLookup]
  | cons hd tl ih =>
    obtain ⟨k2, v2⟩ := hd
    by_cases h : k2 = k
    · simp [mapInsert, h, mapLookup]
    · simp [mapInsert, h, mapLookup, ih]

theorem mapLookup_mapInsert_ne {α : Type} {k k0 : Nat} (v : α) (m : List (Nat × α))
    (h : k ≠ k0) : mapLookup k (mapInsert k0 v m) = mapLookup k m := by
  induction m with
  | nil => simp [mapInsert, mapLookup, Ne.symm h]
  | cons hd tl ih =>
    obtain ⟨k2, v2⟩ := hd
    by_cases h2 : k2 = k0
    · subst h2
      simp [mapInsert, mapLookup, Ne.symm h]
    · by_cases h3 : k2 = k
      · simp [mapInsert, h2, mapLookup, h3, h]
      · simp [mapInsert, h2, mapLookup, h3, ih]

theorem mem_of_mapLookup_eq_some {α : Type} {k : Nat} {v : α} {m : List (Nat × α)}
    (h : mapLookup k m = some v) : (k, v) ∈ m := by
  induction m with
  | nil => simp [mapLookup] at h
  | cons hd tl ih =>
    obtain ⟨k2, v2⟩ := hd
    by_cases h2 : k2 = k
    · subst h2
      simp [mapLookup] at h
      simp [h]
    · simp [mapLookup, h2] at h
      exact List.mem_cons_of_mem _ (ih h)

theorem mapLookup_eq_some_of_mem_nodup {α : Type} {k : Nat} {v : α} {m : List (Nat × α)}
    (hnd : (m.map Prod.fst).Nodup) (h : (k, v) ∈ m) : mapLookup k m = some v := by
  induction m with
  | nil => simp at h
  | cons hd tl ih =>
    obtain ⟨k2, v2⟩ := hd
    simp only [List.map_cons, List.nodup_cons] at hnd
    rcases List.mem_cons.mp h with h1 | h1
    · obtain ⟨rfl, rfl⟩ := Prod.mk.injEq .. ▸ h1
      simp [mapLookup]
    · have hk : k2 ≠ k := by
        rintro rfl
        exact hnd.1 (List.mem_map.mpr ⟨(k2, v), h1, rfl⟩)
      simp [mapLookup, hk, ih hnd.2 h1]

theorem mapLookup_eq_none_iff {α : Type} {k : Nat} {m : List (Nat × α)} :
    mapLookup k m = none ↔ k ∉ m.map Prod.fst := by
  induction m with
  | nil => simp [mapLookup]
  | cons hd tl ih =>
    obtain ⟨k2, v2⟩ := hd
    by_cases h2 : k2 = k
    · subst h2
      simp [mapLookup]
    · simp [mapLookup, h2, ih, Ne.symm h2]

theorem map_fst_mapInsert {α : Type} (k : Nat) (v : α) (m : List (Nat × α)) :
    (mapInsert k v m).map Prod.fst =
      if (mapLookup k m).isSome then m.map Prod.fst else m.map Prod.fst ++ [k] := by
  induction m with
  | nil => simp [mapInsert, mapLookup]
  | cons hd tl ih =>
    obtain ⟨k2, v2⟩ := hd
    by_cases h2 : k2 = k
    · subst h2
      simp [mapInsert, mapLookup]
    · simp only [mapInsert, h2, if_false, List.map_cons, mapLookup, ih]
      by_cases h3 : (mapLookup k tl).isSome <;> simp [h2, h3]

theorem nodup_map_fst_mapInsert {α : Type} (k : Nat) (v : α) {m : List (Nat × α)}
    (hnd : (m.map Prod.fst).Nodup) : ((mapInsert k v m).map Prod.fst).Nodup := by
  rw [map_fst_mapInsert]
  by_cases h : (mapLookup k m).isSome
  · simpa [h] using hnd
  · have hk : k ∉ m.map Prod.fst :=
      mapLookup_eq_none_iff.mp (Option.not_isSome_iff_eq_none.mp h)
    simp [h, List.nodup_append, hnd, hk]

/-! ### The store invariant and its preservation -/

theorem users_new (t0 : Nat) : (NewMemoryDB t0).users = [(1, seedUser t0)] := rfl

theorem products_new (t0 : Nat) : (NewMemoryDB t0).products = [(1, seedProduct t0)] := rfl

theorem storeInv_new (t0 : Nat) : StoreInv (NewMemoryDB t0) := by
  refine ⟨?_, ?_, ?_, ?_, ?_, ?_, Nat.le_refl 1, Nat.le_refl 1⟩
  · intro k u h
    by_cases hk : (1 : Nat) = k
    · subst hk
      simp only [users_new, mapLookup, if_pos rfl] at h
      cases h
      rfl
    · simp only [users_new, mapLookup, if_neg hk] at h
      cases h
  · intro k p h
    by_cases hk : (1 : Nat) = k
    · subst hk
      simp only [products_new, mapLookup, if_pos rfl] at h
      cases h
      rfl
    · simp only [products_new, mapLookup, if_neg hk] at h
      cases h
  · intro k h
    by_cases hk : (1 : Nat) = k
    · exact Or.inr ⟨hk.symm, rfl⟩
    · simp [users_new, mapLookup, if_neg hk] at h
  · intro k h
    by_cases hk : (1 : Nat) = k
    · exact Or.inr ⟨hk.symm, rfl⟩
    · simp [products_new, mapLookup, if_neg hk] at h
  · simp [users_new]
  · simp [products_new]

theorem storeInv_applyOp {db : MemoryDB} (h : StoreInv db) (op : Op) :
    StoreInv (applyOp db op) := by
  obtain ⟨hu, hp, hku, hkp, hnu, hnp, h1u, h1p⟩ := h
  cases op with
  | createUser now u =>
    refine ⟨?_, hp, ?_, hkp, ?_, hnp, Nat.le_succ_of_le h1u, h1p⟩
    · intro k v hv
      by_cases hk : k = db.userID
      · subst hk
        rw [show (applyOp db (Op.createUser now u)).users
              = mapInsert db.userID { u with id := db.userID, createAt := now } db.users
              from rfl, mapLookup_mapInsert_self] at hv
        cases hv
        rfl
      · rw [show (applyOp db (Op.createUser now u)).users
              = mapInsert db.userID { u with id := db.userID, createAt := now } db.users
              from rfl, mapLookup_mapInsert_ne _ _ hk] at hv
        exact hu k v hv
    · intro k hv
      by_cases hk : k = db.userID
      · subst hk
        exact Or.inl (Nat.lt_succ_self db.userID)
      · rw [show (applyOp db (Op.createUser now u)).users
              = mapInsert db.userID { u with id := db.userID, createAt := now } db.users
              from rfl, mapLookup_mapInsert_ne _ _ hk] at hv
        left
        show k < db.userID + 1
        rcases hku k hv with hb | ⟨hb, hb2⟩ <;> omega
    · exact nodup_map_fst_mapInsert _ _ hnu
  | createProduct now p =>
    refine ⟨hu, ?_, hku, ?_, hnu, ?_, h1u, Nat.le_succ_of_le h1p⟩
    · intro k v hv
      by_cases hk : k = db.prodID
      · subst hk
        rw [show (applyOp db (Op.createProduct now p)).products
              = mapInsert db.prodID { p with id := db.prodID, createAt := now, isActive := true }
                  db.products from rfl, mapLookup_mapInsert_self] at hv
        cases hv
        rfl
      · rw [show (applyOp db (Op.createProduct now p)).products
              = mapInsert db.prodID { p with id := db.prodID, createAt := now, isActive := true }
                  db.products from rfl, mapLookup_mapInsert_ne _ _ hk] at hv
        exact hp k v hv
    · intro k hv
      by_cases hk : k = db.prodID
      · subst hk
        exact Or.inl (Nat.lt_succ_self db.prodID)
      · rw [show (applyOp db (Op.createProduct now p)).products
              = mapInsert db.prodID { p with id := db.prodID, createAt := now, isActive := true }
                  db.products from rfl, mapLookup_mapInsert_ne _ _ hk] at hv
        left
        show k < db.prodID + 1
        rcases hkp k hv with hb | ⟨hb, hb2⟩ <;> omega
    · exact nodup_map_fst_mapInsert _ _ hnp
  | getUser id => exact ⟨hu, hp, hku, hkp, hnu, hnp, h1u, h1p⟩
  | getProduct id => exact ⟨hu, hp, hku, hkp, hnu, hnp, h1u, h1p⟩
  | listUsers => exact ⟨hu, hp, hku, hkp, hnu, hnp, h1u, h1p⟩
  | listProducts => exact ⟨hu, hp, hku, hkp, hnu, hnp, h1u, h1p⟩

theorem storeInv_runOps {db : MemoryDB} (h : StoreInv db) (ops : List Op) :
    StoreInv (runOps db ops) := by
  induction ops generalizing db with
  | nil => exact h
  | cons op rest ih => exact ih (storeInv_applyOp h op)

theorem storeInv_of_reachable {db : MemoryDB} (h : Reachable db) : StoreInv db := by
  obtain ⟨t0, ops, rfl⟩ := h
  exact storeInv_runOps (storeInv_new t0) ops

/-! ### Claim theorems -/

/-- Claim C1, counterexample: on a freshly constructed store the user
identity 1 is already present (the seeded admin record), yet the first
`CreateUser` call assigns identity 1 — not strictly greater than every
identity already present — and it overwrites the record stored at key 1. -/
theorem C1_counterexample :
    (GetUserByID (NewMemoryDB 0) 1).isSome = true ∧
    (CreateUser (NewMemoryDB 0) 7 probeUser).1.id = 1 ∧
    ¬ (1 < (CreateUser (NewMemoryDB 0) 7 probeUser).1.id) ∧
    GetUserByID (CreateUser (NewMemoryDB 0) 7 probeUser).2 1 ≠
      GetUserByID (NewMemoryDB 0) 1 := by
  decide

/-- Claim C1, amended: in every reachable state, a create call assigns the
current counter value as identity and bumps the counter, so the assigned
identity is strictly greater than every identity already present — except
that while the counter still equals 1 (no create has happened yet) the
assigned identity 1 coincides with the seeded record's key, and that first
create overwrites the seeded record. Likewise for products. -/
theorem C1_amended_increasing (db : MemoryDB) (h : Reachable db) (now : Nat)
    (u : User) (p : Product) :
    ((CreateUser db now u).1.id = db.userID ∧
     (CreateUser db now u).2.userID = db.userID + 1 ∧
     ∀ k, (GetUserByID db k).isSome →
       k < (CreateUser db now u).1.id ∨ (k = 1 ∧ db.userID = 1)) ∧
    ((CreateProduct db now p).1.id = db.prodID ∧
     (CreateProduct db now p).2.prodID = db.prodID + 1 ∧
     ∀ k, (GetProductByID db k).isSome →
       k < (CreateProduct db now p).1.id ∨ (k = 1 ∧ db.prodID = 1)) := by
  obtain ⟨-, -, hku, hkp, -, -, -, -⟩ := storeInv_of_reachable h
  exact ⟨⟨rfl, rfl, fun k hk => hku k hk⟩, ⟨rfl, rfl, fun k hk => hkp k hk⟩⟩

/-- Witness for the amended C1 theorem at the freshly constructed store. -/
theorem C1_amended_increasing_witness :
    Reachable (NewMemoryDB 0) ∧
    (1 < (CreateUser (NewMemoryDB 0) 3 probeUser).1.id ∨
      ((1 : Nat) = 1 ∧ (NewMemoryDB 0).userID = 1)) :=
  ⟨⟨0, [], rfl⟩,
   (C1_amended_increasing (NewMemoryDB 0) ⟨0, [], rfl⟩ 3 probeUser
       probeProduct).1.2.2 1 (by decide)⟩

/-- Claim C2: `CreateUser` assigns the current counter value as the
record's identity and the current time as its timestamp, stores the
finalized record under that identity, increments the user counter by
exactly one, returns the finalized record, leaves the product collection
and its counter untouched, and (being a total function) never fails. -/
theorem C2_createUser_contract (db : MemoryDB) (now : Nat) (u : User) :
    (CreateUser db now u).1.id = db.userID ∧
    (CreateUser db now u).1.createAt = now ∧
    GetUserByID (CreateUser db now u).2 db.userID = some (CreateUser db now u).1 ∧
    (CreateUser db now u).2.userID = db.userID + 1 ∧
    (CreateUser db now u).2.products = db.products ∧
    (CreateUser db now u).2.prodID = db.prodID := by
  exact ⟨rfl, rfl, mapLookup_mapInsert_self db.userID _ db.users, rfl, rfl, rfl⟩

/-- Claim C4, counterexample: `CreateProduct` does not leave the caller's
active flag unchanged — line 138 forces it to true, so a product submitted
with the flag off is returned (and stored) with the flag on. -/
theorem C4_counterexample :
    probeProduct.isActive = false ∧
    (CreateProduct (NewMemoryDB 0) 7 probeProduct).1.isActive = true :=
  ⟨rfl, rfl⟩

/-- Claim C4, amended: `CreateProduct` matches `CreateUser`'s contract on
identity and timestamp assignment and preserves name, description, price,
stock and category, but unlike `CreateUser` it additionally forces the
active flag to true; `CreateUser` leaves every caller-supplied field other
than identity and timestamp (username, email, full name, active flag)
unchanged in the stored and returned record. -/
theorem C4_amended_frame (db : MemoryDB) (now : Nat) (u : User) (p : Product) :
    ((CreateUser db now u).1.username = u.username ∧
     (CreateUser db now u).1.email = u.email ∧
     (CreateUser db now u).1.fullName = u.fullName ∧
     (CreateUser db now u).1.isActive = u.isActive ∧
     (CreateUser db now u).1.id = db.userID ∧
     (CreateUser db now u).1.createAt = now) ∧
    ((CreateProduct db now p).1.name = p.name ∧
     (CreateProduct db now p).1.description = p.description ∧
     (CreateProduct db now p).1.price = p.price ∧
     (CreateProduct db now p).1.stock = p.stock ∧
     (CreateProduct db now p).1.category = p.category ∧
     (CreateProduct db now p).1.isActive = true ∧
     (CreateProduct db now p).1.id = db.prodID ∧
     (CreateProduct db now p).1.createAt = now) ∧
    GetUserByID (CreateUser db now u).2 db.userID = some (CreateUser db now u).1 ∧
    GetProductByID (CreateProduct db now p).2 db.prodID = some (CreateProduct db now p).1 :=
  ⟨⟨rfl, rfl, rfl, rfl, rfl, rfl⟩, ⟨rfl, rfl, rfl, rfl, rfl, rfl, rfl, rfl⟩,
   mapLookup_mapInsert_self db.userID _ db.users,
   mapLookup_mapInsert_self db.prodID _ db.products⟩

theorem runCreates_ids (inputs : List (Nat × User)) (db : MemoryDB) :
    (runCreates db inputs).1 = List.range' db.userID inputs.length := by
  induction inputs generalizing db with
  | nil => rfl
  | cons hd tl ih =>
    obtain ⟨now, u⟩ := hd
    simp only [runCreates, List.length_cons, List.range'_succ, List.cons.injEq]
    exact ⟨rfl, ih (CreateUser db now u).2⟩

/-- Claim C3 (sequential part): N successive `CreateUser` calls on a fresh
store assign identities `[1, 2, ..., N]` in call order — exactly the set
`{1, ..., N}` with no duplicates and no gaps. -/
theorem C3_fresh_ids_range (t0 : Nat) (inputs : List (Nat × User)) :
    (runCreates (NewMemoryDB t0) inputs).1 = List.range' 1 inputs.length ∧
    (runCreates (NewMemoryDB t0) inputs).1.Nodup ∧
    ∀ i, i ∈ (runCreates (NewMemoryDB t0) inputs).1 ↔ (1 ≤ i ∧ i ≤ inputs.length) := by
  have h : (runCreates (NewMemoryDB t0) inputs).1 = List.range' 1 inputs.length :=
    runCreates_ids inputs (NewMemoryDB t0)
  refine ⟨h, ?_, ?_⟩
  · rw [h]
    exact List.nodup_range' 1 inputs.length
  · intro i
    rw [h, List.mem_range'_1]
    constructor
    · rintro ⟨h1, h2⟩
      exact ⟨h1, by omega⟩
    · rintro ⟨h1, h2⟩
      exact ⟨h1, by omega⟩

/-- Claim C5: looking up the identity just returned by `CreateUser` in the
resulting store always finds the identical finalized record; and the admin
scenario on a fresh store — the create returns identity 1, a non-zero
timestamp (the clock value), and the input's active flag; `GetUser 1` then
returns the same record and `GetUser 2` returns found=false. -/
theorem C5_get_after_create (db : MemoryDB) (now t0 now2 : Nat) (u : User)
    (fname : String) (b : Bool) (hnz : now2 ≠ 0) :
    (GetUserByID (CreateUser db now u).2 (CreateUser db now u).1.id =
      some (CreateUser db now u).1) ∧
    (let adminIn : User :=
       { id := 0, username := "admin", email := "admin@example.com",
         fullName := fname, isActive := b, createAt := 0 }
     let r := CreateUser (NewMemoryDB t0) now2 adminIn
     r.1.id = 1 ∧ r.1.username = "admin" ∧ r.1.email = "admin@example.com" ∧
       r.1.createAt ≠ 0 ∧ r.1.isActive = b ∧
       GetUserByID r.2 1 = some r.1 ∧ GetUserByID r.2 2 = none) := by
  refine ⟨mapLookup_mapInsert_self db.userID _ db.users, ?_⟩
  refine ⟨rfl, rfl, rfl, hnz, rfl, ?_, ?_⟩
  · exact mapLookup_mapInsert_self 1 _ (NewMemoryDB t0).users
  · simp [NewMemoryDB, CreateUser, GetUserByID, mapInsert, mapLookup]

/-- Witness for C5 at a concrete store, clock and input record. -/
theorem C5_get_after_create_witness :
    (5 : Nat) ≠ 0 ∧
    GetUserByID (CreateUser (NewMemoryDB 0) 3 probeUser).2
        (CreateUser (NewMemoryDB 0) 3 probeUser).1.id =
      some (CreateUser (NewMemoryDB 0) 3 probeUser).1 :=
  ⟨by decide,
   (C5_get_after_create (NewMemoryDB 0) 3 0 5 probeUser "x" true (by decide)).1⟩

/-- Claim C6: in every reachable store state, each stored user record's
identity equals the key it is stored under, and likewise for products. -/
theorem C6_key_equals_id (db : MemoryDB) (h : Reachable db) :
    (∀ k u, GetUserByID db k = some u → u.id = k) ∧
    (∀ k p, GetProductByID db k = some p → p.id = k) := by
  obtain ⟨hu, hp, -, -, -, -, -, -⟩ := storeInv_of_reachable h
  exact ⟨hu, hp⟩

/-- Witness for C6 at the freshly constructed store and the seeded user. -/
theorem C6_key_equals_id_witness :
    Reachable (NewMemoryDB 0) ∧ (seedUser 0).id = 1 :=
  ⟨⟨0, [], rfl⟩,
   (C6_key_equals_id (NewMemoryDB 0) ⟨0, [], rfl⟩).1 1 (seedUser 0) (by decide)⟩

/-- Claim C7: `ListUsers` returns one element per stored identity —
exactly the records currently stored, in the (unspecified) order of the
underlying collection. In this by-value embedding the returned list is a
copy by construction, so later creates cannot retroactively change it. -/
theorem C7_list_exact (db : MemoryDB) (h : Reachable db) :
    (GetAllUsers db).length = db.users.length ∧
    ∀ u : User, u ∈ GetAllUsers db ↔ ∃ k, GetUserByID db k = some u := by
  obtain ⟨-, -, -, -, hnu, -, -, -⟩ := storeInv_of_reachable h
  refine ⟨by simp [GetAllUsers], fun u2 => ⟨?_, ?_⟩⟩
  · intro hm
    obtain ⟨⟨k, v⟩, hmem, rfl⟩ := List.mem_map.mp hm
    exact ⟨k, mapLookup_eq_some_of_mem_nodup hnu hmem⟩
  · rintro ⟨k, hk⟩
    exact List.mem_map.mpr ⟨(k, u2), mem_of_mapLookup_eq_some hk, rfl⟩

/-- Witness for C7 at the freshly constructed store and the seeded user. -/
theorem C7_list_exact_witness :
    Reachable (NewMemoryDB 0) ∧ seedUser 0 ∈ GetAllUsers (NewMemoryDB 0) :=
  ⟨⟨0, [], rfl⟩,
   ((C7_list_exact (NewMemoryDB 0) ⟨0, [], rfl⟩).2 (seedUser 0)).mpr ⟨1, rfl⟩⟩

theorem lookup_none_runOps (ops : List Op) (db : MemoryDB) (id : Nat)
    (h0 : mapLookup id db.users = none)
    (h2 : id ∉ assignedUserIDs db ops) :
    mapLookup id (runOps db ops).users = none := by
  induction ops generalizing db with
  | nil => exact h0
  | cons op rest ih =>
    show mapLookup id (runOps (applyOp db op) rest).users = none
    cases op with
    | createUser now u =>
      simp only [assignedUserIDs, List.mem_cons, not_or] at h2
      refine ih _ ?_ h2.2
      rw [show (applyOp db (Op.createUser now u)).users
            = mapInsert db.userID { u with id := db.userID, createAt := now } db.users
            from rfl, mapLookup_mapInsert_ne _ _ h2.1]
      exact h0
    | createProduct now p => exact ih _ h0 h2
    | getUser i => exact ih _ h0 h2
    | getProduct i => exact ih _ h0 h2
    | listUsers => exact ih _ h0 h2
    | listProducts => exact ih _ h0 h2

/-- Claim C8: an identity the store never assigned (neither the seeded
key 1 nor any identity handed out by a create during the run) is reported
found=false by `GetUser` — an optional result, not an error — while every
identity currently stored is reported found=true with its stored record. -/
theorem C8_missing_found_false (t0 : Nat) (ops : List Op) (id id2 : Nat) (u : User)
    (h1 : id ≠ 1) (h2 : id ∉ assignedUserIDs (NewMemoryDB t0) ops)
    (h3 : mapLookup id2 (runOps (NewMemoryDB t0) ops).users = some u) :
    GetUserByID (runOps (NewMemoryDB t0) ops) id = none ∧
    GetUserByID (runOps (NewMemoryDB t0) ops) id2 = some u := by
  refine ⟨lookup_none_runOps ops _ id ?_ h2, h3⟩
  simp [users_new, mapLookup, Ne.symm h1]

/-- Witness for C8 on the fresh store: identity 2 was never assigned and
is not found; identity 1 holds the seeded record. -/
theorem C8_missing_found_false_witness :
    GetUserByID (runOps (NewMemoryDB 0) []) 2 = none ∧
    GetUserByID (runOps (NewMemoryDB 0) []) 1 = some (seedUser 0) :=
  C8_missing_found_false 0 [] 2 1 (seedUser 0) (by decide)
    (by exact List.not_mem_nil 2) rfl

/-- Claim C10: `NewMemoryDB` pre-seeds one user with identity 1 (username
"admin") and one product with identity 1, leaving both counters at 1, so
both seeded records are found before any create, and the first create of
each entity type is assigned identity 1, replacing the seeded record. -/
theorem C10_seeded_fresh_store (t0 now now2 : Nat) (u : User) (p : Product) :
    GetUserByID (NewMemoryDB t0) 1 = some (seedUser t0) ∧
    (seedUser t0).username = "admin" ∧
    GetProductByID (NewMemoryDB t0) 1 = some (seedProduct t0) ∧
    (NewMemoryDB t0).userID = 1 ∧
    (NewMemoryDB t0).prodID = 1 ∧
    (CreateUser (NewMemoryDB t0) now u).1.id = 1 ∧
    GetUserByID (CreateUser (NewMemoryDB t0) now u).2 1 =
      some (CreateUser (NewMemoryDB t0) now u).1 ∧
    (CreateProduct (NewMemoryDB t0) now2 p).1.id = 1 ∧
    GetProductByID (CreateProduct (NewMemoryDB t0) now2 p).2 1 =
      some (CreateProduct (NewMemoryDB t0) now2 p).1 := by
  refine ⟨rfl, rfl, rfl, rfl, rfl, rfl, ?_, rfl, ?_⟩
  · exact mapLookup_mapInsert_self 1 _ (NewMemoryDB t0).users
  · exact mapLookup_mapInsert_self 1 _ (NewMemoryDB t0).products

end SimpleMain
